import Mathlib

/-
  Shallow embedding of the RUKAeFlesh acquisition sketches.

  The repository holds two Arduino sketch variants of one design:
  * `src/unnamed/part_000` (the V2 sketch): a board-configuration table
    `boardConfig`, a multiplexer channel selector `tcaSelect`, a setup
    routine that initializes every configured sensor and records a
    per-endpoint success flag, an acquisition loop that collects a
    snapshot of all configured sensors into `allReadings` and then emits
    one tagged, tab-separated line per cycle;
  * `src/MuxMultiSensor/MuxMultiSensor.ino` (the V1 sketch): a fixed
    20-board by 5-slot grid whose loop prints tagged values for
    initialized sensors and untagged zero placeholders for failed ones.

  Machine integers are modelled as Nat with explicit `% 256` where byte
  truncation matters; sensor samples are signed integers (Int), following
  the data model of the design document (the low-level driver is an
  external collaborator).  Arrays indexed by (board, slot) are modelled
  as functions `Nat → Nat → α` updated pointwise; each C loop becomes a
  `List.foldl` over the same index range the loop traverses.
-/

namespace Ruka

/-- Sample record (MLX90393::txyz): three signed axis components. -/
structure Txyz where
  x : Int
  y : Int
  z : Int
deriving Repr, DecidableEq

/-- One cell of the snapshot buffer: the `allReadings.readings[b][s]`
entry merged with its `allReadings.isValid[b][s]` flag. -/
structure Cell where
  x : Int
  y : Int
  z : Int
  valid : Bool
deriving Repr, DecidableEq

/-- The all-zero, invalid cell the V2 loop stores for absent sensors. -/
def zeroCell : Cell := ⟨0, 0, 0, false⟩

/-- Cell holding a fresh device sample, marked valid. -/
def sampleCell (t : Txyz) : Cell := ⟨t.x, t.y, t.z, true⟩

/-- SensorBoard (struct in part_000): sensor count, bus addresses, label. -/
structure SensorBoard where
  numSensors : Nat
  addresses : List Nat
  label : String
deriving Repr, DecidableEq

/-- Board topology: the compiled-in configuration table is a list of
board descriptors; `cfg.length` plays the role of NUMBER_OF_BOARDS. -/
abbrev Cfg := List SensorBoard

/-- boardConfig from part_000 (8 boards: three 5X, then 1XC/1XF singles). -/
def boardConfig : Cfg :=
  [⟨5, [0x0C, 0x13, 0x12, 0x10, 0x11], "5X"⟩,
   ⟨5, [0x0C, 0x13, 0x12, 0x10, 0x11], "5X"⟩,
   ⟨5, [0x0C, 0x13, 0x12, 0x10, 0x11], "5X"⟩,
   ⟨1, [0x0C], "1XC"⟩,
   ⟨1, [0x0F], "1XF"⟩,
   ⟨1, [0x0C], "1XC"⟩,
   ⟨1, [0x0F], "1XF"⟩,
   ⟨1, [0x0F], "1XF"⟩]

/-- Configured sensor count of board `b` (boardConfig[board].numSensors);
out-of-range boards read as empty, matching that loops never touch them. -/
def nS (cfg : Cfg) (b : Nat) : Nat := (cfg.getD b ⟨0, [], ""⟩).numSensors

/-- Bus address of slot `s` on board `b` (boardConfig[board].addresses[sensor]). -/
def addrAt (cfg : Cfg) (b s : Nat) : Nat := (cfg.getD b ⟨0, [], ""⟩).addresses.getD s 0

/-- Pointwise update of a (board, slot)-indexed grid, the effect of one
C array store `a[b][s] = v`. -/
def upd2 {α : Type} (f : Nat → Nat → α) (b s : Nat) (v : α) : Nat → Nat → α :=
  fun b' s' => if b' = b then (if s' = s then v else f b' s') else f b' s'

/-! ### Bus Channel Selector (tcaSelect, identical in both sketches)

`tcaSelect(uint8_t i)` returns at once when `i > 7`; otherwise it writes
the single byte `1 << i` to the multiplexer's control register.  The
model takes the current register value and returns the register value
after the call together with the list of bytes written on the bus. -/

/-- tcaSelect: `if (i > 7) return;` else write `1 << i` (a byte) to the
mux control register.  Result: (register after the call, bytes written). -/
def tcaSelect (i : Nat) (reg : Nat) : Nat × List Nat :=
  if i > 7 then (reg, []) else ((1 <<< i) % 256, [(1 <<< i) % 256])

theorem upd2_same {α : Type} (f : Nat → Nat → α) (b s : Nat) (v : α) :
    upd2 f b s v b s = v := by
  simp [upd2]

theorem upd2_other {α : Type} (f : Nat → Nat → α) (b s b' s' : Nat) (v : α)
    (h : ¬(b' = b ∧ s' = s)) : upd2 f b s v b' s' = f b' s' := by
  unfold upd2
  by_cases hb : b' = b
  · subst hb
    have hs : ¬ s' = s := fun hss => h ⟨rfl, hss⟩
    simp [hs]
  · simp [hb]

/-- C2: for every channel index `i > 7`, `tcaSelect i` performs no bus
write and leaves the multiplexer's active-channel register exactly as it
was before the call. -/
theorem tcaSelect_out_of_range_noop (i reg : Nat) (h : i > 7) :
    tcaSelect i reg = (reg, []) := by
  simp [tcaSelect, h]

/-- Witness for C2: `tcaSelect 9` with channel 3 (mask 8) active keeps
mask 8 active and writes nothing. -/
theorem tcaSelect_out_of_range_noop_witness :
    tcaSelect 9 8 = (8, []) :=
  tcaSelect_out_of_range_noop 9 8 (by decide)

/-- C7: for every channel index `i ≤ 7`, `tcaSelect i` writes the single
byte `1 <<< i = 2 ^ i` to the control register, after which exactly bit
`i` of the register is set and every other bit is clear. -/
theorem tcaSelect_in_range_mask (i reg : Nat) (h : i ≤ 7) :
    (tcaSelect i reg).2 = [2 ^ i] ∧ (tcaSelect i reg).1 = 2 ^ i ∧
      ∀ j : Nat, (tcaSelect i reg).1.testBit j = decide (j = i) := by
  have hlt : ¬ i > 7 := by omega
  have hpow : (1 <<< i) % 256 = 2 ^ i := by
    have h1 : (1 : Nat) <<< i = 2 ^ i := by
      rw [Nat.shiftLeft_eq, one_mul]
    have h2 : 2 ^ i < 256 := by
      calc 2 ^ i ≤ 2 ^ 7 := Nat.pow_le_pow_right (by norm_num) h
        _ < 256 := by norm_num
    rw [h1, Nat.mod_eq_of_lt h2]
  refine ⟨?_, ?_, ?_⟩
  · simp [tcaSelect, hlt, hpow]
  · simp [tcaSelect, hlt, hpow]
  · intro j
    simp only [tcaSelect, hlt, if_false, hpow]
    rw [Nat.testBit_two_pow]
    by_cases hij : i = j
    · simp [hij]
    · have hji : ¬ j = i := fun hji => hij hji.symm
      simp [hij, hji]

/-- Witness for C7: selecting channel 5 writes the byte 32; bit 5 of the
register is then set and bits 0 and 7 are clear. -/
theorem tcaSelect_in_range_mask_witness :
    (tcaSelect 5 1).2 = [2 ^ 5] ∧ (tcaSelect 5 1).1 = 2 ^ 5 ∧
      ∀ j : Nat, (tcaSelect 5 1).1.testBit j = decide (j = 5) :=
  tcaSelect_in_range_mask 5 1 (by decide)

/-! ### Generic fold lemmas for loop embeddings -/

/-- A fold whose step acts componentwise on a pair splits into two folds. -/
theorem foldl_prod_of_step {α β ι : Type} (step : α × β → ι → α × β)
    (f : α → ι → α) (g : β → ι → β)
    (hstep : ∀ a b i, step (a, b) i = (f a i, g b i)) :
    ∀ (l : List ι) (a : α) (b : β), l.foldl step (a, b) = (l.foldl f a, l.foldl g b) := by
  intro l
  induction l with
  | nil => intro a b; rfl
  | cons i t ih => intro a b; rw [List.foldl_cons, List.foldl_cons, List.foldl_cons, hstep, ih]

/-- Closed form of a loop that stores `g s` into row `b` for every slot
`s` in a contiguous index range. -/
theorem foldl_upd2_range' {α : Type} (g : Nat → α) (b : Nat) :
    ∀ (len a : Nat) (f : Nat → Nat → α) (b' s' : Nat),
      ((List.range' a len).foldl (fun fl s => upd2 fl b s (g s)) f) b' s'
        = if b' = b ∧ a ≤ s' ∧ s' < a + len then g s' else f b' s' := by
  intro len
  induction len with
  | zero =>
    intro a f b' s'
    have h : ¬(b' = b ∧ a ≤ s' ∧ s' < a + 0) := by
      rintro ⟨_, h1, h2⟩; omega
    rw [show List.range' a 0 = [] from rfl, List.foldl_nil, if_neg h]
  | succ n ih =>
    intro a f b' s'
    rw [List.range'_succ, List.foldl_cons, ih (a + 1)]
    simp only [upd2]
    split_ifs <;> first
      | rfl
      | omega
      | (subst_vars; rfl)

/-- Closed form of the same loop over `List.range n`. -/
theorem foldl_upd2_range {α : Type} (g : Nat → α) (b : Nat)
    (n : Nat) (f : Nat → Nat → α) (b' s' : Nat) :
    ((List.range n).foldl (fun fl s => upd2 fl b s (g s)) f) b' s'
      = if b' = b ∧ s' < n then g s' else f b' s' := by
  rw [List.range_eq_range', foldl_upd2_range']
  by_cases hb : b' = b ∧ s' < n
  · simp [hb, hb.1, hb.2]
  · have h2 : ¬(b' = b ∧ 0 ≤ s' ∧ s' < 0 + n) := by
      rintro ⟨h3, _, h4⟩; exact hb ⟨h3, by omega⟩
    simp [hb, h2]

/-- A fold that only appends `k i` to an accumulator list concatenates
the chunks in order. -/
theorem foldl_append_flatMap {α ι : Type} (k : ι → List α) :
    ∀ (l : List ι) (tr : List α),
      l.foldl (fun t i => t ++ k i) tr = tr ++ l.flatMap k := by
  intro l
  induction l with
  | nil => intro tr; simp
  | cons i t ih => intro tr; rw [List.foldl_cons, ih, List.flatMap_cons, List.append_assoc]

/-- Expansion of `flatMap` into singleton lists. -/
theorem flatMap_singleton_pairs {α β : Type} (g : α → β) :
    ∀ (l : List α), (l.flatMap fun s => [g s]) = l.map g := by
  intro l
  induction l with
  | nil => rfl
  | cons i t ih => rw [List.flatMap_cons, List.map_cons, ih]; rfl

/-! ### Sensor Endpoint Pool: setup / initializeAll (part_000 lines 101-141)

Setup walks the boards in order; per board it selects the channel, then
for each configured slot calls `mlx[board][sensor].begin(...)`: status 0
starts burst mode and sets `sensorIsInitialized[board][sensor] = true`,
nonzero status sets it `false`; afterwards every unused slot
(`numSensors ≤ sensor < 5`) is set `false`.  The per-endpoint flag grid
is a function `Flags`; the device-visible calls are recorded as events. -/

/-- Initialization-success flag grid (sensorIsInitialized). -/
abbrev Flags := Nat → Nat → Bool

/-- Status oracle for the simulated device set: what
`mlx[b][s].begin(addr, -1, Wire1)` returns for the device reached through
channel `b` at bus address `addr` (0 = success). -/
abbrev DevStatus := Nat → Nat → Nat

/-- Device-visible events of the setup routine. -/
inductive SEv where
  | select : Nat → SEv
  | probe : Nat → Nat → Nat → Nat → SEv
  | burst : Nat → Nat → SEv
deriving Repr, DecidableEq

/-- Body of the configured-slot initialization loop (lines 115-135): the
`begin` probe always happens; status 0 starts burst mode and records
success, nonzero records failure. -/
def setupStep (cfg : Cfg) (dev : DevStatus) (b : Nat) (st : Flags × List SEv) (s : Nat) :
    Flags × List SEv :=
  let a := addrAt cfg b s
  let status := dev b a
  if status == 0 then
    (upd2 st.1 b s true, st.2 ++ [SEv.probe b s a status, SEv.burst b s])
  else
    (upd2 st.1 b s false, st.2 ++ [SEv.probe b s a status])

/-- One board's slice of setup: select the channel, initialize the
configured slots, then clear the unused slots (lines 102-141). -/
def setupBoard (cfg : Cfg) (dev : DevStatus) (st : Flags × List SEv) (b : Nat) :
    Flags × List SEv :=
  let st1 : Flags × List SEv := (st.1, st.2 ++ [SEv.select b])
  let st2 := (List.range (nS cfg b)).foldl (setupStep cfg dev b) st1
  ((List.range' (nS cfg b) (5 - nS cfg b)).foldl (fun fl s => upd2 fl b s false) st2.1, st2.2)

/-- initializeAll: the full setup scan over every board in registry order. -/
def initializeAll (cfg : Cfg) (dev : DevStatus) (st : Flags × List SEv) :
    Flags × List SEv :=
  (List.range cfg.length).foldl (setupBoard cfg dev) st

/-- Events the probe of one slot generates. -/
def slotEvents (cfg : Cfg) (dev : DevStatus) (b s : Nat) : List SEv :=
  if dev b (addrAt cfg b s) == 0 then
    [SEv.probe b s (addrAt cfg b s) (dev b (addrAt cfg b s)), SEv.burst b s]
  else
    [SEv.probe b s (addrAt cfg b s) (dev b (addrAt cfg b s))]

/-- Events one board's setup slice generates. -/
def boardEvents (cfg : Cfg) (dev : DevStatus) (b : Nat) : List SEv :=
  SEv.select b :: (List.range (nS cfg b)).flatMap (slotEvents cfg dev b)

/-- Full event trace of initializeAll. -/
def setupTrace (cfg : Cfg) (dev : DevStatus) : List SEv :=
  (List.range cfg.length).flatMap (boardEvents cfg dev)

/-- The configured (board, slot) pairs in scan order. -/
def slotPairs (cfg : Cfg) : List (Nat × Nat) :=
  (List.range cfg.length).flatMap (fun b => (List.range (nS cfg b)).map (fun s => (b, s)))

theorem setupStep_split (cfg : Cfg) (dev : DevStatus) (b : Nat)
    (fl : Flags) (tr : List SEv) (s : Nat) :
    setupStep cfg dev b (fl, tr) s
      = (upd2 fl b s (dev b (addrAt cfg b s) == 0), tr ++ slotEvents cfg dev b s) := by
  by_cases h : dev b (addrAt cfg b s) == 0 <;>
    simp [setupStep, slotEvents, h]

theorem setupBoard_flags (cfg : Cfg) (dev : DevStatus)
    (st : Flags × List SEv) (b b' s' : Nat) :
    (setupBoard cfg dev st b).1 b' s'
      = if b' = b then
          (if s' < nS cfg b then (dev b (addrAt cfg b s') == 0)
           else if s' < 5 then false
           else st.1 b' s')
        else st.1 b' s' := by
  have hsplit : setupBoard cfg dev st b
      = ((List.range' (nS cfg b) (5 - nS cfg b)).foldl (fun fl s => upd2 fl b s false)
           ((List.range (nS cfg b)).foldl (setupStep cfg dev b)
             (st.1, st.2 ++ [SEv.select b])).1,
         ((List.range (nS cfg b)).foldl (setupStep cfg dev b)
           (st.1, st.2 ++ [SEv.select b])).2) := rfl
  rw [hsplit,
      foldl_prod_of_step (setupStep cfg dev b)
        (fun fl s => upd2 fl b s (dev b (addrAt cfg b s) == 0))
        (fun tr s => tr ++ slotEvents cfg dev b s)
        (fun fl tr s => setupStep_split cfg dev b fl tr s)]
  show ((List.range' (nS cfg b) (5 - nS cfg b)).foldl (fun fl s => upd2 fl b s false)
          ((List.range (nS cfg b)).foldl
            (fun fl s => upd2 fl b s (dev b (addrAt cfg b s) == 0)) st.1)) b' s' = _
  rw [foldl_upd2_range' (fun _ => false) b, foldl_upd2_range (fun s => dev b (addrAt cfg b s) == 0) b]
  by_cases hb : b' = b
  · by_cases h1 : s' < nS cfg b
    · have h2 : ¬(b' = b ∧ nS cfg b ≤ s' ∧ s' < nS cfg b + (5 - nS cfg b)) := by
        rintro ⟨_, h3, _⟩; omega
      rw [if_neg h2, if_pos (⟨hb, h1⟩ : b' = b ∧ s' < nS cfg b), if_pos hb, if_pos h1]
    · by_cases h3 : s' < 5
      · have h4 : b' = b ∧ nS cfg b ≤ s' ∧ s' < nS cfg b + (5 - nS cfg b) :=
          ⟨hb, by omega, by omega⟩
        rw [if_pos h4, if_pos hb, if_neg h1, if_pos h3]
      · have h4 : ¬(b' = b ∧ nS cfg b ≤ s' ∧ s' < nS cfg b + (5 - nS cfg b)) := by
          rintro ⟨_, _, h5⟩; omega
        have h5 : ¬(b' = b ∧ s' < nS cfg b) := fun h => h1 h.2
        rw [if_neg h4, if_neg h5, if_pos hb, if_neg h1, if_neg h3]
  · have h2 : ¬(b' = b ∧ nS cfg b ≤ s' ∧ s' < nS cfg b + (5 - nS cfg b)) := fun h => hb h.1
    have h3 : ¬(b' = b ∧ s' < nS cfg b) := fun h => hb h.1
    rw [if_neg h2, if_neg h3, if_neg hb]

theorem setupBoard_trace (cfg : Cfg) (dev : DevStatus)
    (st : Flags × List SEv) (b : Nat) :
    (setupBoard cfg dev st b).2 = st.2 ++ boardEvents cfg dev b := by
  have hsplit : (setupBoard cfg dev st b).2
      = ((List.range (nS cfg b)).foldl (setupStep cfg dev b)
          (st.1, st.2 ++ [SEv.select b])).2 := rfl
  rw [hsplit,
      foldl_prod_of_step (setupStep cfg dev b)
        (fun fl s => upd2 fl b s (dev b (addrAt cfg b s) == 0))
        (fun tr s => tr ++ slotEvents cfg dev b s)
        (fun fl tr s => setupStep_split cfg dev b fl tr s)]
  show (List.range (nS cfg b)).foldl (fun tr s => tr ++ slotEvents cfg dev b s)
        (st.2 ++ [SEv.select b]) = _
  rw [foldl_append_flatMap, boardEvents, List.append_assoc]
  rfl

theorem initializeAll_flags (cfg : Cfg) (dev : DevStatus)
    (st : Flags × List SEv) (b' s' : Nat) :
    (initializeAll cfg dev st).1 b' s'
      = if b' < cfg.length then
          (if s' < nS cfg b' then (dev b' (addrAt cfg b' s') == 0)
           else if s' < 5 then false
           else st.1 b' s')
        else st.1 b' s' := by
  unfold initializeAll
  suffices h : ∀ n : Nat,
      ((List.range n).foldl (setupBoard cfg dev) st).1 b' s'
        = if b' < n then
            (if s' < nS cfg b' then (dev b' (addrAt cfg b' s') == 0)
             else if s' < 5 then false
             else st.1 b' s')
          else st.1 b' s' from h cfg.length
  intro n
  induction n with
  | zero => simp
  | succ n ih =>
    rw [List.range_succ, List.foldl_append, List.foldl_cons, List.foldl_nil,
        setupBoard_flags, ih]
    by_cases hb : b' = n
    · subst hb
      have h1 : ¬ b' < b' := lt_irrefl b'
      have h2 : b' < b' + 1 := Nat.lt_succ_self b'
      simp [h1, h2]
    · by_cases h1 : b' < n
      · have h2 : b' < n + 1 := by omega
        simp [hb, h1, h2]
      · have h2 : ¬ b' < n + 1 := by omega
        simp [hb, h1, h2]

theorem initializeAll_trace (cfg : Cfg) (dev : DevStatus)
    (st : Flags × List SEv) :
    (initializeAll cfg dev st).2 = st.2 ++ setupTrace cfg dev := by
  unfold initializeAll setupTrace
  suffices h : ∀ n : Nat,
      ((List.range n).foldl (setupBoard cfg dev) st).2
        = st.2 ++ (List.range n).flatMap (boardEvents cfg dev) from h cfg.length
  intro n
  induction n with
  | zero => simp
  | succ n ih =>
    rw [List.range_succ, List.foldl_append, List.foldl_cons, List.foldl_nil,
        setupBoard_trace, ih, List.flatMap_append, List.flatMap_cons,
        List.flatMap_nil, List.append_nil, List.append_assoc]

/-- Key extracting the endpoint an initialization attempt targets. -/
def probeKey : SEv → Option (Nat × Nat)
  | SEv.probe b s _ _ => some (b, s)
  | _ => none

theorem setupTrace_probes (cfg : Cfg) (dev : DevStatus) :
    (setupTrace cfg dev).filterMap probeKey = slotPairs cfg := by
  unfold setupTrace slotPairs
  rw [List.filterMap_flatMap]
  congr 1
  funext b
  rw [boardEvents]
  rw [List.filterMap_cons]
  have hsel : probeKey (SEv.select b) = none := rfl
  rw [hsel]
  rw [List.filterMap_flatMap]
  have h : ∀ s : Nat, (slotEvents cfg dev b s).filterMap probeKey = [(b, s)] := by
    intro s
    by_cases hd : dev b (addrAt cfg b s) == 0
    · simp [slotEvents, hd, List.filterMap_cons, probeKey]
    · simp [slotEvents, hd, List.filterMap_cons, probeKey]
  calc ((List.range (nS cfg b)).flatMap fun s => (slotEvents cfg dev b s).filterMap probeKey)
      = (List.range (nS cfg b)).flatMap fun s => [(b, s)] := by
        congr 1; funext s; exact h s
    _ = (List.range (nS cfg b)).map fun s => (b, s) := flatMap_singleton_pairs _ _

theorem setupTrace_burst_mem (cfg : Cfg) (dev : DevStatus) (b s : Nat) :
    SEv.burst b s ∈ setupTrace cfg dev
      ↔ b < cfg.length ∧ s < nS cfg b ∧ dev b (addrAt cfg b s) = 0 := by
  unfold setupTrace boardEvents
  simp only [List.mem_flatMap, List.mem_range, List.mem_cons]
  constructor
  · rintro ⟨b', hb', hmem⟩
    rcases hmem with hsel | hmem
    · exact absurd hsel (by simp)
    · rcases hmem with ⟨s', hs', hev⟩
      unfold slotEvents at hev
      by_cases hd : dev b' (addrAt cfg b' s') == 0
      · rw [if_pos hd] at hev
        simp only [List.mem_cons, List.not_mem_nil, or_false] at hev
        rcases hev with hev | hev
        · exact absurd hev (by simp)
        · rw [SEv.burst.injEq] at hev
          obtain ⟨rfl, rfl⟩ := hev
          exact ⟨hb', hs', by simpa using hd⟩
      · rw [if_neg hd] at hev
        simp only [List.mem_cons, List.not_mem_nil, or_false] at hev
        exact absurd hev (by simp)
  · rintro ⟨hb, hs, hd⟩
    refine ⟨b, hb, Or.inr ⟨s, hs, ?_⟩⟩
    unfold slotEvents
    have hd2 : (dev b (addrAt cfg b s) == 0) = true := by simpa using hd
    rw [if_pos hd2]
    exact List.mem_cons_of_mem _ (List.mem_cons_self _ _)

/-- The concrete scenario topology from the design document: board 0 has
two sensors at 0x0C/0x13, board 1 one sensor at 0x0F. -/
def cfgScenario : Cfg := [⟨2, [0x0C, 0x13], "5X"⟩, ⟨1, [0x0F], "1XF"⟩]

/-- Simulated device set for the scenario: board 0 devices succeed,
board 1's device fails with status 3. -/
def devScenario : DevStatus := fun b _ => if b = 0 then 0 else 3

/-- C4: during initializeAll every configured slot of every board is
probed exactly once, in scan order, whatever the device statuses are (so
no failure ever prevents the attempt on a sibling slot or a later board,
and there is no retry and no abort); a zero status leaves the endpoint
flagged initialized and arms the device's burst mode, a nonzero status
leaves it flagged uninitialized and arms nothing. -/
theorem initializeAll_fault_tolerant (cfg : Cfg) (dev : DevStatus)
    (st : Flags × List SEv) (b s : Nat) (hb : b < cfg.length) (hs : s < nS cfg b) :
    ((setupTrace cfg dev).filterMap probeKey = slotPairs cfg)
    ∧ ((initializeAll cfg dev st).1 b s = (dev b (addrAt cfg b s) == 0))
    ∧ (SEv.burst b s ∈ setupTrace cfg dev ↔ dev b (addrAt cfg b s) = 0) := by
  refine ⟨setupTrace_probes cfg dev, ?_, ?_⟩
  · rw [initializeAll_flags, if_pos hb, if_pos hs]
  · rw [setupTrace_burst_mem]
    constructor
    · rintro ⟨_, _, hd⟩; exact hd
    · intro hd; exact ⟨hb, hs, hd⟩

/-- Witness for C4 at the scenario topology: endpoint (0, 1) succeeds,
and concretely the probe list covers all three configured slots once,
endpoint (1, 0) fails without stopping anything. -/
theorem initializeAll_fault_tolerant_witness :
    (0 : Nat) < cfgScenario.length ∧ (1 : Nat) < nS cfgScenario 0 ∧
      (((setupTrace cfgScenario devScenario).filterMap probeKey = slotPairs cfgScenario)
      ∧ ((initializeAll cfgScenario devScenario ((fun _ _ => false), [])).1 0 1
          = (devScenario 0 (addrAt cfgScenario 0 1) == 0))
      ∧ (SEv.burst 0 1 ∈ setupTrace cfgScenario devScenario
          ↔ devScenario 0 (addrAt cfgScenario 0 1) = 0)) :=
  ⟨by decide, by decide,
    initializeAll_fault_tolerant cfgScenario devScenario ((fun _ _ => false), []) 0 1
      (by decide) (by decide)⟩

/-- C8: initializeAll is idempotent on the initialization flags — a
second run against the same simulated device set reproduces exactly the
flag grid the first run produced. -/
theorem initializeAll_idempotent (cfg : Cfg) (dev : DevStatus)
    (st : Flags × List SEv) :
    (initializeAll cfg dev (initializeAll cfg dev st)).1
      = (initializeAll cfg dev st).1 := by
  funext b s
  rw [initializeAll_flags, initializeAll_flags]
  by_cases hb : b < cfg.length
  · by_cases h1 : s < nS cfg b
    · simp [hb, h1]
    · by_cases h2 : s < 5
      · simp [hb, h1, h2]
      · simp [hb, h1, h2, initializeAll_flags]
  · simp [hb, initializeAll_flags]

/-! ### Snapshot Collector (part_000 loop STEP 1, lines 160-190)

Each cycle walks the boards in ascending order; per board it selects the
channel, then for each configured slot either reads the initialized
sensor into `allReadings` (marking it valid) or clears the cell, and
finally force-clears every unused slot.  The buffer is a grid function;
the bus-visible calls (channel selects and burst reads) are recorded as
an event trace. -/

/-- Snapshot buffer grid (allReadings: readings merged with isValid). -/
abbrev Buffer := Nat → Nat → Cell

/-- Readings oracle: the sample `readBurstData` delivers for the device
at (board, slot) during the cycle being modelled. -/
abbrev Readings := Nat → Nat → Txyz

/-- Bus events of one acquisition cycle. -/
inductive Ev where
  | select : Nat → Ev
  | read : Nat → Nat → Ev
deriving Repr, DecidableEq

/-- Body of the configured-slot collection loop (lines 167-179): an
initialized sensor is read into its cell and marked valid, a failed one
has its cell cleared and marked invalid without touching the bus. -/
def collectStep (rd : Readings) (flags : Flags) (b : Nat)
    (st : Buffer × List Ev) (s : Nat) : Buffer × List Ev :=
  if flags b s then
    (upd2 st.1 b s (sampleCell (rd b s)), st.2 ++ [Ev.read b s])
  else
    (upd2 st.1 b s zeroCell, st.2)

/-- One board's slice of the cycle: select the channel, read or clear
each configured slot, then force-clear the unused slots (lines 162-190). -/
def collectBoard (cfg : Cfg) (flags : Flags) (rd : Readings)
    (st : Buffer × List Ev) (b : Nat) : Buffer × List Ev :=
  let st1 : Buffer × List Ev := (st.1, st.2 ++ [Ev.select b])
  let st2 := (List.range (nS cfg b)).foldl (collectStep rd flags b) st1
  ((List.range' (nS cfg b) (5 - nS cfg b)).foldl (fun bf s => upd2 bf b s zeroCell) st2.1,
    st2.2)

/-- STEP 1 of the loop: the snapshot collection pass of one cycle,
starting from whatever the buffer held at the end of the previous cycle. -/
def collectCycle (cfg : Cfg) (flags : Flags) (rd : Readings) (buf : Buffer) : Buffer :=
  ((List.range cfg.length).foldl (collectBoard cfg flags rd) (buf, [])).1

/-- Bus-event trace of one cycle's collection pass. -/
def cycleTrace (cfg : Cfg) (flags : Flags) (rd : Readings) (buf : Buffer) : List Ev :=
  ((List.range cfg.length).foldl (collectBoard cfg flags rd) (buf, [])).2

/-- Bus events the collection of one slot generates. -/
def slotReads (flags : Flags) (b s : Nat) : List Ev :=
  if flags b s then [Ev.read b s] else []

/-- Bus events one board's slice of the cycle generates. -/
def boardTrace (cfg : Cfg) (flags : Flags) (b : Nat) : List Ev :=
  Ev.select b :: (List.range (nS cfg b)).flatMap (slotReads flags b)

theorem collectStep_split (rd : Readings) (flags : Flags) (b : Nat)
    (bf : Buffer) (tr : List Ev) (s : Nat) :
    collectStep rd flags b (bf, tr) s
      = (upd2 bf b s (if flags b s then sampleCell (rd b s) else zeroCell),
         tr ++ slotReads flags b s) := by
  by_cases h : flags b s <;> simp [collectStep, slotReads, h]

theorem collectBoard_buffer (cfg : Cfg) (flags : Flags) (rd : Readings)
    (st : Buffer × List Ev) (b b' s' : Nat) :
    (collectBoard cfg flags rd st b).1 b' s'
      = if b' = b then
          (if s' < nS cfg b then (if flags b s' then sampleCell (rd b s') else zeroCell)
           else if s' < 5 then zeroCell
           else st.1 b' s')
        else st.1 b' s' := by
  have hsplit : collectBoard cfg flags rd st b
      = ((List.range' (nS cfg b) (5 - nS cfg b)).foldl (fun bf s => upd2 bf b s zeroCell)
           ((List.range (nS cfg b)).foldl (collectStep rd flags b)
             (st.1, st.2 ++ [Ev.select b])).1,
         ((List.range (nS cfg b)).foldl (collectStep rd flags b)
           (st.1, st.2 ++ [Ev.select b])).2) := rfl
  rw [hsplit,
      foldl_prod_of_step (collectStep rd flags b)
        (fun bf s => upd2 bf b s (if flags b s then sampleCell (rd b s) else zeroCell))
        (fun tr s => tr ++ slotReads flags b s)
        (fun bf tr s => collectStep_split rd flags b bf tr s)]
  show ((List.range' (nS cfg b) (5 - nS cfg b)).foldl (fun bf s => upd2 bf b s zeroCell)
          ((List.range (nS cfg b)).foldl
            (fun bf s => upd2 bf b s (if flags b s then sampleCell (rd b s) else zeroCell))
            st.1)) b' s' = _
  rw [foldl_upd2_range' (fun _ => zeroCell) b,
      foldl_upd2_range (fun s => if flags b s then sampleCell (rd b s) else zeroCell) b]
  by_cases hb : b' = b
  · by_cases h1 : s' < nS cfg b
    · have h2 : ¬(b' = b ∧ nS cfg b ≤ s' ∧ s' < nS cfg b + (5 - nS cfg b)) := by
        rintro ⟨_, h3, _⟩; omega
      rw [if_neg h2, if_pos (⟨hb, h1⟩ : b' = b ∧ s' < nS cfg b), if_pos hb, if_pos h1]
    · by_cases h3 : s' < 5
      · have h4 : b' = b ∧ nS cfg b ≤ s' ∧ s' < nS cfg b + (5 - nS cfg b) :=
          ⟨hb, by omega, by omega⟩
        rw [if_pos h4, if_pos hb, if_neg h1, if_pos h3]
      · have h4 : ¬(b' = b ∧ nS cfg b ≤ s' ∧ s' < nS cfg b + (5 - nS cfg b)) := by
          rintro ⟨_, _, h5⟩; omega
        have h5 : ¬(b' = b ∧ s' < nS cfg b) := fun h => h1 h.2
        rw [if_neg h4, if_neg h5, if_pos hb, if_neg h1, if_neg h3]
  · have h2 : ¬(b' = b ∧ nS cfg b ≤ s' ∧ s' < nS cfg b + (5 - nS cfg b)) := fun h => hb h.1
    have h3 : ¬(b' = b ∧ s' < nS cfg b) := fun h => hb h.1
    rw [if_neg h2, if_neg h3, if_neg hb]

theorem collectBoard_trace (cfg : Cfg) (flags : Flags) (rd : Readings)
    (st : Buffer × List Ev) (b : Nat) :
    (collectBoard cfg flags rd st b).2 = st.2 ++ boardTrace cfg flags b := by
  have hsplit : (collectBoard cfg flags rd st b).2
      = ((List.range (nS cfg b)).foldl (collectStep rd flags b)
          (st.1, st.2 ++ [Ev.select b])).2 := rfl
  rw [hsplit,
      foldl_prod_of_step (collectStep rd flags b)
        (fun bf s => upd2 bf b s (if flags b s then sampleCell (rd b s) else zeroCell))
        (fun tr s => tr ++ slotReads flags b s)
        (fun bf tr s => collectStep_split rd flags b bf tr s)]
  show (List.range (nS cfg b)).foldl (fun tr s => tr ++ slotReads flags b s)
        (st.2 ++ [Ev.select b]) = _
  rw [foldl_append_flatMap, boardTrace, List.append_assoc]
  rfl

theorem collectCycle_apply (cfg : Cfg) (flags : Flags) (rd : Readings)
    (buf : Buffer) (b' s' : Nat) :
    collectCycle cfg flags rd buf b' s'
      = if b' < cfg.length then
          (if s' < nS cfg b' then (if flags b' s' then sampleCell (rd b' s') else zeroCell)
           else if s' < 5 then zeroCell
           else buf b' s')
        else buf b' s' := by
  unfold collectCycle
  suffices h : ∀ n : Nat,
      ((List.range n).foldl (collectBoard cfg flags rd) (buf, [])).1 b' s'
        = if b' < n then
            (if s' < nS cfg b' then (if flags b' s' then sampleCell (rd b' s') else zeroCell)
             else if s' < 5 then zeroCell
             else buf b' s')
          else buf b' s' from h cfg.length
  intro n
  induction n with
  | zero => simp
  | succ n ih =>
    rw [List.range_succ, List.foldl_append, List.foldl_cons, List.foldl_nil,
        collectBoard_buffer, ih]
    by_cases hb : b' = n
    · subst hb
      have h1 : ¬ b' < b' := lt_irrefl b'
      have h2 : b' < b' + 1 := Nat.lt_succ_self b'
      simp [h1, h2]
    · by_cases h1 : b' < n
      · have h2 : b' < n + 1 := by omega
        simp [hb, h1, h2]
      · have h2 : ¬ b' < n + 1 := by omega
        simp [hb, h1, h2]

theorem cycleTrace_eq (cfg : Cfg) (flags : Flags) (rd : Readings) (buf : Buffer) :
    cycleTrace cfg flags rd buf = (List.range cfg.length).flatMap (boardTrace cfg flags) := by
  unfold cycleTrace
  suffices h : ∀ n : Nat,
      ((List.range n).foldl (collectBoard cfg flags rd) (buf, [])).2
        = (List.range n).flatMap (boardTrace cfg flags) from h cfg.length
  intro n
  induction n with
  | zero => simp
  | succ n ih =>
    rw [List.range_succ, List.foldl_append, List.foldl_cons, List.foldl_nil,
        collectBoard_trace, ih, List.flatMap_append, List.flatMap_cons,
        List.flatMap_nil, List.append_nil]

/-- Expansion of the per-board read events: the initialized subset of
the configured slots, in ascending slot order. -/
theorem flatMap_slotReads (flags : Flags) (b : Nat) :
    ∀ l : List Nat, l.flatMap (slotReads flags b)
      = (l.filter (fun s => flags b s)).map (Ev.read b) := by
  intro l
  induction l with
  | nil => rfl
  | cons s t ih =>
    rw [List.flatMap_cons, ih]
    by_cases h : flags b s
    · rw [List.filter_cons_of_pos (by simpa using h), List.map_cons]
      simp [slotReads, h]
    · rw [List.filter_cons_of_neg (by simpa using h)]
      simp [slotReads, h]

/-- Key extracting the channel a select event targets. -/
def selectKey : Ev → Option Nat
  | Ev.select b => some b
  | _ => none

/-- C1: on every acquisition cycle, every cell (b, s) of the snapshot
buffer whose endpoint is uninitialized or whose slot is at or beyond the
board's configured sensor count is written to `{0,0,0,valid=false}`,
whatever the cell held before the cycle. -/
theorem collect_clears_uninitialized (cfg : Cfg) (flags : Flags) (rd : Readings)
    (buf : Buffer) (b s : Nat) (hb : b < cfg.length) (hs5 : s < 5)
    (h : flags b s = false ∨ nS cfg b ≤ s) :
    collectCycle cfg flags rd buf b s = zeroCell := by
  rw [collectCycle_apply, if_pos hb]
  by_cases h1 : s < nS cfg b
  · rcases h with hf | hcnt
    · rw [if_pos h1, if_neg (by simp [hf])]
    · omega
  · rw [if_neg h1, if_pos hs5]

/-- Witness for C1: with the scenario topology, a buffer full of stale
valid data, and sensor (1, 0) uninitialized, the cycle clears cell (1, 0)
and also force-clears the unconfigured cell (1, 3). -/
theorem collect_clears_uninitialized_witness :
    ((0 : Nat) < 5 ∧ (1 : Nat) < cfgScenario.length ∧
      collectCycle cfgScenario (fun b _ => b == 0) (fun _ _ => ⟨4, 5, 6⟩)
        (fun _ _ => ⟨7, 8, 9, true⟩) 1 0 = zeroCell) ∧
    ((3 : Nat) < 5 ∧
      collectCycle cfgScenario (fun b _ => b == 0) (fun _ _ => ⟨4, 5, 6⟩)
        (fun _ _ => ⟨7, 8, 9, true⟩) 1 3 = zeroCell) :=
  ⟨⟨by decide, by decide,
    collect_clears_uninitialized cfgScenario (fun b _ => b == 0) (fun _ _ => ⟨4, 5, 6⟩)
      (fun _ _ => ⟨7, 8, 9, true⟩) 1 0 (by decide) (by decide) (Or.inl (by decide))⟩,
   ⟨by decide,
    collect_clears_uninitialized cfgScenario (fun b _ => b == 0) (fun _ _ => ⟨4, 5, 6⟩)
      (fun _ _ => ⟨7, 8, 9, true⟩) 1 3 (by decide) (by decide) (Or.inr (by decide))⟩⟩

/-- C6: snapshot cycles are independent — the value any in-topology cell
holds at the end of a cycle is a function of that cycle's readings and
initialization flags alone (freshly read when initialized and
configured, freshly cleared otherwise), with no residue from the buffer
contents the cycle started from. -/
theorem collect_cycle_independent (cfg : Cfg) (flags : Flags) (rd : Readings)
    (buf : Buffer) (b s : Nat) (hb : b < cfg.length) (hs5 : s < 5) :
    collectCycle cfg flags rd buf b s
      = if s < nS cfg b ∧ flags b s = true then sampleCell (rd b s) else zeroCell := by
  rw [collectCycle_apply, if_pos hb]
  by_cases h1 : s < nS cfg b
  · by_cases h2 : flags b s
    · rw [if_pos h1, if_pos h2, if_pos ⟨h1, h2⟩]
    · rw [if_pos h1, if_neg h2, if_neg (fun h => h2 h.2)]
  · rw [if_neg h1, if_pos hs5, if_neg (fun h => h1 h.1)]

/-- Witness for C6: two cycles over the scenario topology starting from
different stale buffers agree cell-by-cell; cell (0, 1) carries exactly
this cycle's reading. -/
theorem collect_cycle_independent_witness :
    (1 : Nat) < 5 ∧ (0 : Nat) < cfgScenario.length ∧
      collectCycle cfgScenario (fun b _ => b == 0) (fun b s => ⟨Int.ofNat b, Int.ofNat s, 2⟩)
          (fun _ _ => ⟨7, 8, 9, true⟩) 0 1
        = sampleCell ⟨0, 1, 2⟩ ∧
      collectCycle cfgScenario (fun b _ => b == 0) (fun b s => ⟨Int.ofNat b, Int.ofNat s, 2⟩)
          (fun _ _ => zeroCell) 0 1
        = sampleCell ⟨0, 1, 2⟩ := by
  refine ⟨by decide, by decide, ?_, ?_⟩
  · rw [collect_cycle_independent cfgScenario (fun b _ => b == 0)
          (fun b s => ⟨Int.ofNat b, Int.ofNat s, 2⟩) (fun _ _ => ⟨7, 8, 9, true⟩) 0 1
          (by decide) (by decide)]
    decide
  · rw [collect_cycle_independent cfgScenario (fun b _ => b == 0)
          (fun b s => ⟨Int.ofNat b, Int.ofNat s, 2⟩) (fun _ _ => zeroCell) 0 1
          (by decide) (by decide)]
    decide

/-- C9: within a cycle the bus-event trace is exactly, board by board in
ascending order, a channel select followed by that board's initialized
configured slots read in ascending slot order — so every read of board
`b` falls after `tcaSelect b` and before the select of any other board,
and no two boards' reads interleave; the select events alone list the
boards `0, 1, ...` in ascending order. -/
theorem cycle_trace_ordered (cfg : Cfg) (flags : Flags) (rd : Readings) (buf : Buffer) :
    cycleTrace cfg flags rd buf
      = (List.range cfg.length).flatMap (fun b =>
          Ev.select b :: ((List.range (nS cfg b)).filter (fun s => flags b s)).map (Ev.read b))
    ∧ (cycleTrace cfg flags rd buf).filterMap selectKey = List.range cfg.length := by
  have htr : cycleTrace cfg flags rd buf
      = (List.range cfg.length).flatMap (fun b =>
          Ev.select b :: ((List.range (nS cfg b)).filter (fun s => flags b s)).map (Ev.read b)) := by
    rw [cycleTrace_eq]
    congr 1
    funext b
    rw [boardTrace, flatMap_slotReads]
  refine ⟨htr, ?_⟩
  rw [htr, List.filterMap_flatMap]
  have h : ∀ b : Nat,
      ((Ev.select b :: ((List.range (nS cfg b)).filter (fun s => flags b s)).map (Ev.read b)).filterMap
        selectKey) = [b] := by
    intro b
    rw [List.filterMap_cons]
    have hsel : selectKey (Ev.select b) = some b := rfl
    rw [hsel, List.filterMap_map]
    have hnone : (selectKey ∘ Ev.read b) = fun _ => none := rfl
    rw [hnone]
    simp
  calc ((List.range cfg.length).flatMap fun b =>
          ((Ev.select b :: ((List.range (nS cfg b)).filter (fun s => flags b s)).map (Ev.read b)).filterMap
            selectKey))
      = (List.range cfg.length).flatMap fun b => [b] := by
        congr 1; funext b; exact h b
    _ = (List.range cfg.length).map id := flatMap_singleton_pairs id _
    _ = List.range cfg.length := List.map_id _

/-! ### Frame Emitter (part_000 loop STEP 2, lines 192-231)

STEP 2 walks every configured slot in board-then-slot order; before each
group except the first it prints a tab (`firstValue` flag), then prints
the three tagged axis fields of the group, tab-separated inside the
group, and ends the cycle's record with `Serial.println()`. -/

/-- Arduino `Serial.println()` line terminator. -/
def endl : String := "\r\n"

/-- Text one sensor group contributes (lines 203-227): the X, Y and Z
fields printed back-to-back with a tab after X and after Y. -/
def emitGroup (b s : Nat) (c : Cell) : String :=
  "Board" ++ toString b ++ "Sensor" ++ toString s ++ "X:" ++ toString c.x ++ "\t" ++
  "Board" ++ toString b ++ "Sensor" ++ toString s ++ "Y:" ++ toString c.y ++ "\t" ++
  "Board" ++ toString b ++ "Sensor" ++ toString s ++ "Z:" ++ toString c.z

/-- Emission step for one (board, slot) pair: a tab separator unless
this is the first group (lines 198-200), then the group text. -/
def emitStep (buf : Buffer) (st : Bool × String) (p : Nat × Nat) : Bool × String :=
  (false, st.2 ++ (if st.1 then "" else "\t") ++ emitGroup p.1 p.2 (buf p.1 p.2))

/-- STEP 2 of the loop: the full output record of one cycle. -/
def emitLine (cfg : Cfg) (buf : Buffer) : String :=
  ((List.range cfg.length).foldl (fun st b =>
      (List.range (nS cfg b)).foldl (fun st' s => emitStep buf st' (b, s)) st)
    (true, "")).2 ++ endl

/-- The textual tag of one output field. -/
def tagStr (b s : Nat) (ax : String) : String :=
  "Board" ++ toString b ++ "Sensor" ++ toString s ++ ax

/-- A single output field: tag, colon, printed value. -/
def fieldStr (b s : Nat) (ax : String) (v : Int) : String :=
  "Board" ++ toString b ++ "Sensor" ++ toString s ++ ax ++ ":" ++ toString v

theorem fieldStr_parts (b s : Nat) (ax : String) (v : Int) :
    fieldStr b s ax v = tagStr b s ax ++ ":" ++ toString v := rfl

/-- The list of fields the emitter prints, in board-then-slot order. -/
def emitFields (cfg : Cfg) (buf : Buffer) : List String :=
  (slotPairs cfg).flatMap (fun p =>
    [fieldStr p.1 p.2 "X" (buf p.1 p.2).x,
     fieldStr p.1 p.2 "Y" (buf p.1 p.2).y,
     fieldStr p.1 p.2 "Z" (buf p.1 p.2).z])

/-- Tab-join of a field list: the fields separated by single tabs. -/
def joinTabs : List String → String
  | [] => ""
  | [a] => a
  | a :: b :: t => a ++ "\t" ++ joinTabs (b :: t)

/-- Concatenation of fields each preceded by a tab. -/
def tabcat : List String → String
  | [] => ""
  | a :: t => "\t" ++ a ++ tabcat t

theorem joinTabs_cons : ∀ (xs : List String) (a : String),
    joinTabs (a :: xs) = a ++ tabcat xs := by
  intro xs
  induction xs with
  | nil => intro a; simp [joinTabs, tabcat]
  | cons b t ih =>
    intro a
    show a ++ "\t" ++ joinTabs (b :: t) = _
    rw [ih b]
    show a ++ "\t" ++ (b ++ tabcat t) = a ++ ("\t" ++ b ++ tabcat t)
    simp [String.append_assoc]

theorem tabcat_append (xs ys : List String) :
    tabcat (xs ++ ys) = tabcat xs ++ tabcat ys := by
  induction xs with
  | nil => simp [tabcat]
  | cons a t ih =>
    show "\t" ++ a ++ tabcat (t ++ ys) = "\t" ++ a ++ tabcat t ++ tabcat ys
    rw [ih]
    simp [String.append_assoc]

/-- Flattening the nested board/slot loops into one loop over the
configured (board, slot) pairs. -/
theorem foldl_nested_pairs {σ : Type} (f : σ → (Nat × Nat) → σ)
    (g : Nat → List Nat) :
    ∀ (L : List Nat) (init : σ),
      L.foldl (fun st b => (g b).foldl (fun st' s => f st' (b, s)) st) init
        = (L.flatMap (fun b => (g b).map (fun s => (b, s)))).foldl f init := by
  intro L
  induction L with
  | nil => intro init; rfl
  | cons b t ih =>
    intro init
    rw [List.foldl_cons, List.flatMap_cons, List.foldl_append, ← List.foldl_map, ih]

theorem foldl_emitStep_false (buf : Buffer) :
    ∀ (l : List (Nat × Nat)) (acc : String),
      l.foldl (emitStep buf) (false, acc)
        = (false, acc ++ tabcat (l.map (fun p => emitGroup p.1 p.2 (buf p.1 p.2)))) := by
  intro l
  induction l with
  | nil => intro acc; simp [tabcat]
  | cons p t ih =>
    intro acc
    rw [List.foldl_cons]
    show t.foldl (emitStep buf) (false, acc ++ "\t" ++ emitGroup p.1 p.2 (buf p.1 p.2)) = _
    rw [ih]
    show (false, acc ++ "\t" ++ emitGroup p.1 p.2 (buf p.1 p.2)
            ++ tabcat (t.map (fun p => emitGroup p.1 p.2 (buf p.1 p.2)))) = _
    rw [List.map_cons]
    show _ = (false, acc ++ ("\t" ++ emitGroup p.1 p.2 (buf p.1 p.2)
            ++ tabcat (t.map (fun p => emitGroup p.1 p.2 (buf p.1 p.2)))))
    simp [String.append_assoc]

theorem foldl_emitStep_true (buf : Buffer) (l : List (Nat × Nat)) :
    (l.foldl (emitStep buf) (true, "")).2
      = joinTabs (l.map (fun p => emitGroup p.1 p.2 (buf p.1 p.2))) := by
  cases l with
  | nil => rfl
  | cons p t =>
    rw [List.foldl_cons]
    show (t.foldl (emitStep buf) (false, "" ++ "" ++ emitGroup p.1 p.2 (buf p.1 p.2))).2 = _
    rw [foldl_emitStep_false, List.map_cons, joinTabs_cons]
    simp [String.empty_append]

/-- One group is its three fields joined by inner tabs. -/
theorem emitGroup_eq_fields (b s : Nat) (c : Cell) :
    emitGroup b s c
      = fieldStr b s "X" c.x ++ "\t" ++ fieldStr b s "Y" c.y ++ "\t" ++ fieldStr b s "Z" c.z := by
  have hX : ∀ r : String, "X" ++ (":" ++ r) = "X:" ++ r :=
    fun r => (String.append_assoc "X" ":" r).symm
  have hY : ∀ r : String, "Y" ++ (":" ++ r) = "Y:" ++ r :=
    fun r => (String.append_assoc "Y" ":" r).symm
  have hZ : ∀ r : String, "Z" ++ (":" ++ r) = "Z:" ++ r :=
    fun r => (String.append_assoc "Z" ":" r).symm
  unfold emitGroup fieldStr
  simp only [String.append_assoc, hX, hY, hZ]

theorem tabcat_triple_eq (b s : Nat) (c : Cell) :
    tabcat [fieldStr b s "X" c.x, fieldStr b s "Y" c.y, fieldStr b s "Z" c.z]
      = "\t" ++ emitGroup b s c := by
  have h0 : tabcat [fieldStr b s "X" c.x, fieldStr b s "Y" c.y, fieldStr b s "Z" c.z]
      = "\t" ++ fieldStr b s "X" c.x ++ ("\t" ++ fieldStr b s "Y" c.y
          ++ ("\t" ++ fieldStr b s "Z" c.z ++ "")) := rfl
  rw [h0, emitGroup_eq_fields]
  simp [String.append_assoc, String.append_empty]

theorem tabcat_emitFields (buf : Buffer) :
    ∀ l : List (Nat × Nat),
      tabcat (l.flatMap (fun p =>
        [fieldStr p.1 p.2 "X" (buf p.1 p.2).x,
         fieldStr p.1 p.2 "Y" (buf p.1 p.2).y,
         fieldStr p.1 p.2 "Z" (buf p.1 p.2).z]))
        = tabcat (l.map (fun p => emitGroup p.1 p.2 (buf p.1 p.2))) := by
  intro l
  induction l with
  | nil => rfl
  | cons p t ih =>
    rw [List.flatMap_cons, tabcat_append, ih, List.map_cons, tabcat_triple_eq]
    rfl

theorem joinTabs_emitFields (buf : Buffer) (l : List (Nat × Nat)) :
    joinTabs (l.flatMap (fun p =>
      [fieldStr p.1 p.2 "X" (buf p.1 p.2).x,
       fieldStr p.1 p.2 "Y" (buf p.1 p.2).y,
       fieldStr p.1 p.2 "Z" (buf p.1 p.2).z]))
      = joinTabs (l.map (fun p => emitGroup p.1 p.2 (buf p.1 p.2))) := by
  cases l with
  | nil => rfl
  | cons p t =>
    rw [List.flatMap_cons, List.map_cons]
    have h1 : [fieldStr p.1 p.2 "X" (buf p.1 p.2).x, fieldStr p.1 p.2 "Y" (buf p.1 p.2).y,
          fieldStr p.1 p.2 "Z" (buf p.1 p.2).z]
        ++ t.flatMap (fun p => [fieldStr p.1 p.2 "X" (buf p.1 p.2).x,
              fieldStr p.1 p.2 "Y" (buf p.1 p.2).y, fieldStr p.1 p.2 "Z" (buf p.1 p.2).z])
        = fieldStr p.1 p.2 "X" (buf p.1 p.2).x
          :: ([fieldStr p.1 p.2 "Y" (buf p.1 p.2).y, fieldStr p.1 p.2 "Z" (buf p.1 p.2).z]
              ++ t.flatMap (fun p => [fieldStr p.1 p.2 "X" (buf p.1 p.2).x,
                    fieldStr p.1 p.2 "Y" (buf p.1 p.2).y, fieldStr p.1 p.2 "Z" (buf p.1 p.2).z])) := rfl
    rw [h1, joinTabs_cons, joinTabs_cons, tabcat_append, tabcat_emitFields buf t,
        emitGroup_eq_fields]
    have htc : tabcat [fieldStr p.1 p.2 "Y" (buf p.1 p.2).y, fieldStr p.1 p.2 "Z" (buf p.1 p.2).z]
        = "\t" ++ fieldStr p.1 p.2 "Y" (buf p.1 p.2).y
            ++ ("\t" ++ fieldStr p.1 p.2 "Z" (buf p.1 p.2).z ++ "") := rfl
    rw [htc]
    simp [String.append_assoc, String.append_empty]

/-- The emitted record is exactly its fields joined by single tabs and
terminated by the line break. -/
theorem emitLine_eq_joinTabs (cfg : Cfg) (buf : Buffer) :
    emitLine cfg buf = joinTabs (emitFields cfg buf) ++ endl := by
  unfold emitLine emitFields
  rw [foldl_nested_pairs (emitStep buf) (fun b => List.range (nS cfg b)),
      foldl_emitStep_true, joinTabs_emitFields buf (slotPairs cfg)]
  rfl

/-- Forall₂ across equal flatMap spines. -/
theorem forall₂_flatMap {α β γ : Type} (R : β → γ → Prop) (F : α → List β) (G : α → List γ)
    (h : ∀ a, List.Forall₂ R (F a) (G a)) :
    ∀ l : List α, List.Forall₂ R (l.flatMap F) (l.flatMap G) := by
  intro l
  induction l with
  | nil => exact List.Forall₂.nil
  | cons a t ih =>
    rw [List.flatMap_cons, List.flatMap_cons]
    exact List.rel_append (h a) ih

/-- C3: the emitted record is its fields joined by single tabs and
terminated by a line break, every field being of the form
`Board<b>Sensor<s><Axis>:<value>` in board-then-slot order; over the
concrete scenario topology (board 0 with two sensors, board 1 with one)
the frame is exactly the nine fields tagged Board0Sensor0X/Y/Z,
Board0Sensor1X/Y/Z, Board1Sensor0X/Y/Z. -/
theorem emit_frame_format :
    (∀ (cfg : Cfg) (buf : Buffer), emitLine cfg buf = joinTabs (emitFields cfg buf) ++ endl)
    ∧ slotPairs cfgScenario = [(0, 0), (0, 1), (1, 0)]
    ∧ (∀ buf : Buffer, emitFields cfgScenario buf
        = [fieldStr 0 0 "X" (buf 0 0).x, fieldStr 0 0 "Y" (buf 0 0).y, fieldStr 0 0 "Z" (buf 0 0).z,
           fieldStr 0 1 "X" (buf 0 1).x, fieldStr 0 1 "Y" (buf 0 1).y, fieldStr 0 1 "Z" (buf 0 1).z,
           fieldStr 1 0 "X" (buf 1 0).x, fieldStr 1 0 "Y" (buf 1 0).y, fieldStr 1 0 "Z" (buf 1 0).z])
    ∧ (∀ buf : Buffer, (emitFields cfgScenario buf).length = 9) :=
  ⟨emitLine_eq_joinTabs, by decide, fun _ => rfl, fun _ => rfl⟩

/-- C5: the emitted frame's schema is buffer-independent — over one and
the same topology, any two snapshot buffers yield field lists of equal
length whose fields pair up position by position with identical tags,
differing only in the printed values, and each line is those fields
tab-joined and newline-terminated. -/
theorem emit_schema_stable (cfg : Cfg) (buf1 buf2 : Buffer) :
    (emitFields cfg buf1).length = (emitFields cfg buf2).length
    ∧ List.Forall₂ (fun f g => ∃ t v w, f = t ++ ":" ++ v ∧ g = t ++ ":" ++ w)
        (emitFields cfg buf1) (emitFields cfg buf2)
    ∧ emitLine cfg buf1 = joinTabs (emitFields cfg buf1) ++ endl
    ∧ emitLine cfg buf2 = joinTabs (emitFields cfg buf2) ++ endl := by
  have h2 : List.Forall₂ (fun f g => ∃ t v w, f = t ++ ":" ++ v ∧ g = t ++ ":" ++ w)
      (emitFields cfg buf1) (emitFields cfg buf2) := by
    unfold emitFields
    refine forall₂_flatMap _ _ _ ?_ (slotPairs cfg)
    intro p
    refine List.Forall₂.cons ?_ (List.Forall₂.cons ?_ (List.Forall₂.cons ?_ List.Forall₂.nil))
    · exact ⟨tagStr p.1 p.2 "X", toString (buf1 p.1 p.2).x, toString (buf2 p.1 p.2).x,
        fieldStr_parts p.1 p.2 "X" (buf1 p.1 p.2).x, fieldStr_parts p.1 p.2 "X" (buf2 p.1 p.2).x⟩
    · exact ⟨tagStr p.1 p.2 "Y", toString (buf1 p.1 p.2).y, toString (buf2 p.1 p.2).y,
        fieldStr_parts p.1 p.2 "Y" (buf1 p.1 p.2).y, fieldStr_parts p.1 p.2 "Y" (buf2 p.1 p.2).y⟩
    · exact ⟨tagStr p.1 p.2 "Z", toString (buf1 p.1 p.2).z, toString (buf2 p.1 p.2).z,
        fieldStr_parts p.1 p.2 "Z" (buf1 p.1 p.2).z, fieldStr_parts p.1 p.2 "Z" (buf2 p.1 p.2).z⟩
  exact ⟨h2.length_eq, h2, emitLine_eq_joinTabs cfg buf1, emitLine_eq_joinTabs cfg buf2⟩

/-! ### V1 sketch (MuxMultiSensor.ino): fixed 20 x 5 grid emission

The V1 loop has no snapshot buffer: per (board, sensor) pair it either
prints the three tagged axis values (tags `Board<b>Sensor<Axis>:`
without a slot index) or, for a sensor that failed to initialize, three
untagged placeholder values `0`, `yOffsets[board]`, `0`; every field is
followed by a tab, and `Serial.println()` ends the cycle's line. -/

/-- yOffsets in V1: `int yOffsets[NUMBER_OF_BOARDS] = {0};` — aggregate
initialization zero-fills the array, and nothing ever writes to it. -/
def yOffsets : Nat → Int := fun _ => 0

/-- The three fields one (board, sensor) pair prints in V1 (lines
98-125): tagged axis values when initialized, untagged placeholders
otherwise. -/
def v1Group (flags : Flags) (rd : Readings) (b s : Nat) : List String :=
  if flags b s then
    ["Board" ++ toString b ++ "SensorX:" ++ toString (rd b s).x,
     "Board" ++ toString b ++ "SensorY:" ++ toString (rd b s).y,
     "Board" ++ toString b ++ "SensorZ:" ++ toString (rd b s).z]
  else
    [toString (0 : Int), toString (yOffsets b), toString (0 : Int)]

/-- V1 field list of one cycle: all 20 boards, all 5 slots each. -/
def v1Fields (flags : Flags) (rd : Readings) : List String :=
  (List.range 20).flatMap (fun b =>
    (List.range 5).flatMap (fun s => v1Group flags rd b s))

/-- V1 output line as printed (lines 91-129): per slot, either the three
tagged fields or the three placeholders, each followed by a tab; the
cycle ends with `Serial.println()`. -/
def v1Line (flags : Flags) (rd : Readings) : String :=
  ((List.range 20).foldl (fun acc b =>
      (List.range 5).foldl (fun acc2 s =>
        if flags b s then
          acc2 ++ ("Board" ++ toString b ++ "SensorX:") ++ toString (rd b s).x ++ "\t"
               ++ ("Board" ++ toString b ++ "SensorY:") ++ toString (rd b s).y ++ "\t"
               ++ ("Board" ++ toString b ++ "SensorZ:") ++ toString (rd b s).z ++ "\t"
        else
          acc2 ++ toString (0 : Int) ++ "\t" ++ toString (yOffsets b) ++ "\t"
               ++ toString (0 : Int) ++ "\t") acc) "") ++ endl

/-- Concatenation of fields each followed by a tab. -/
def tabAfter : List String → String
  | [] => ""
  | f :: t => f ++ "\t" ++ tabAfter t

/-- Plain concatenation of a list of strings. -/
def strJoin : List String → String
  | [] => ""
  | a :: t => a ++ strJoin t

theorem tabAfter_append (xs ys : List String) :
    tabAfter (xs ++ ys) = tabAfter xs ++ tabAfter ys := by
  induction xs with
  | nil => simp [tabAfter]
  | cons a t ih =>
    show a ++ "\t" ++ tabAfter (t ++ ys) = a ++ "\t" ++ tabAfter t ++ tabAfter ys
    rw [ih]
    simp [String.append_assoc]

theorem foldl_append_str {ι : Type} (k : ι → String) :
    ∀ (l : List ι) (acc : String),
      l.foldl (fun a i => a ++ k i) acc = acc ++ strJoin (l.map k) := by
  intro l
  induction l with
  | nil => intro acc; simp [strJoin]
  | cons i t ih =>
    intro acc
    rw [List.foldl_cons, ih, List.map_cons]
    show acc ++ k i ++ strJoin (t.map k) = acc ++ (k i ++ strJoin (t.map k))
    simp [String.append_assoc]

theorem strJoin_tabAfter {α : Type} (F : α → List String) :
    ∀ l : List α, strJoin (l.map (fun a => tabAfter (F a))) = tabAfter (l.flatMap F) := by
  intro l
  induction l with
  | nil => rfl
  | cons a t ih =>
    rw [List.map_cons, List.flatMap_cons, tabAfter_append]
    show tabAfter (F a) ++ strJoin (t.map (fun a => tabAfter (F a))) = _
    rw [ih]

theorem v1Step_eq (flags : Flags) (rd : Readings) (b : Nat) (acc2 : String) (s : Nat) :
    (if flags b s then
      acc2 ++ ("Board" ++ toString b ++ "SensorX:") ++ toString (rd b s).x ++ "\t"
           ++ ("Board" ++ toString b ++ "SensorY:") ++ toString (rd b s).y ++ "\t"
           ++ ("Board" ++ toString b ++ "SensorZ:") ++ toString (rd b s).z ++ "\t"
    else
      acc2 ++ toString (0 : Int) ++ "\t" ++ toString (yOffsets b) ++ "\t"
           ++ toString (0 : Int) ++ "\t")
      = acc2 ++ tabAfter (v1Group flags rd b s) := by
  by_cases h : flags b s
  · rw [if_pos h]
    unfold v1Group
    rw [if_pos h]
    show _ = acc2 ++ ("Board" ++ toString b ++ "SensorX:" ++ toString (rd b s).x ++ "\t"
        ++ ("Board" ++ toString b ++ "SensorY:" ++ toString (rd b s).y ++ "\t"
          ++ ("Board" ++ toString b ++ "SensorZ:" ++ toString (rd b s).z ++ "\t" ++ "")))
    simp [String.append_assoc, String.append_empty]
  · rw [if_neg h]
    unfold v1Group
    rw [if_neg h]
    show _ = acc2 ++ (toString (0 : Int) ++ "\t" ++ (toString (yOffsets b) ++ "\t"
        ++ (toString (0 : Int) ++ "\t" ++ "")))
    simp [String.append_assoc, String.append_empty]

/-- The V1 line is exactly its fields each followed by a tab, then the
line break. -/
theorem v1Line_eq_fields (flags : Flags) (rd : Readings) :
    v1Line flags rd = tabAfter (v1Fields flags rd) ++ endl := by
  unfold v1Line v1Fields
  have hinner : ∀ (b : Nat) (acc : String),
      (List.range 5).foldl (fun acc2 s =>
        if flags b s then
          acc2 ++ ("Board" ++ toString b ++ "SensorX:") ++ toString (rd b s).x ++ "\t"
               ++ ("Board" ++ toString b ++ "SensorY:") ++ toString (rd b s).y ++ "\t"
               ++ ("Board" ++ toString b ++ "SensorZ:") ++ toString (rd b s).z ++ "\t"
        else
          acc2 ++ toString (0 : Int) ++ "\t" ++ toString (yOffsets b) ++ "\t"
               ++ toString (0 : Int) ++ "\t") acc
        = acc ++ tabAfter ((List.range 5).flatMap (fun s => v1Group flags rd b s)) := by
    intro b acc
    have hstep : (fun acc2 s =>
        if flags b s then
          acc2 ++ ("Board" ++ toString b ++ "SensorX:") ++ toString (rd b s).x ++ "\t"
               ++ ("Board" ++ toString b ++ "SensorY:") ++ toString (rd b s).y ++ "\t"
               ++ ("Board" ++ toString b ++ "SensorZ:") ++ toString (rd b s).z ++ "\t"
        else
          acc2 ++ toString (0 : Int) ++ "\t" ++ toString (yOffsets b) ++ "\t"
               ++ toString (0 : Int) ++ "\t")
        = (fun (acc2 : String) (s : Nat) => acc2 ++ tabAfter (v1Group flags rd b s)) := by
      funext acc2 s
      exact v1Step_eq flags rd b acc2 s
    rw [hstep, foldl_append_str (fun s => tabAfter (v1Group flags rd b s))]
    congr 1
    exact strJoin_tabAfter (v1Group flags rd b) (List.range 5)
  have houter : (fun acc b =>
      (List.range 5).foldl (fun acc2 s =>
        if flags b s then
          acc2 ++ ("Board" ++ toString b ++ "SensorX:") ++ toString (rd b s).x ++ "\t"
               ++ ("Board" ++ toString b ++ "SensorY:") ++ toString (rd b s).y ++ "\t"
               ++ ("Board" ++ toString b ++ "SensorZ:") ++ toString (rd b s).z ++ "\t"
        else
          acc2 ++ toString (0 : Int) ++ "\t" ++ toString (yOffsets b) ++ "\t"
               ++ toString (0 : Int) ++ "\t") acc)
      = (fun (acc : String) (b : Nat) =>
          acc ++ tabAfter ((List.range 5).flatMap (fun s => v1Group flags rd b s))) := by
    funext acc b
    exact hinner b acc
  rw [houter, foldl_append_str
        (fun b => tabAfter ((List.range 5).flatMap (fun s => v1Group flags rd b s)))]
  rw [strJoin_tabAfter (fun b => (List.range 5).flatMap (fun s => v1Group flags rd b s))]
  rfl

theorem length_flatMap_const {α β : Type} (F : α → List β) (k : Nat)
    (h : ∀ a, (F a).length = k) :
    ∀ l : List α, (l.flatMap F).length = l.length * k := by
  intro l
  induction l with
  | nil => simp
  | cons a t ih =>
    rw [List.flatMap_cons, List.length_append, h a, ih, List.length_cons]
    ring

theorem v1Group_length (flags : Flags) (rd : Readings) (b s : Nat) :
    (v1Group flags rd b s).length = 3 := by
  by_cases h : flags b s <;> simp [v1Group, h]

/-- C10: in the V1 sketch every cycle's line is all 20 x 5 x 3 fields
each followed by a tab — 300 fields whatever the initialization flags —
and an uninitialized endpoint contributes exactly the three untagged
placeholders `0`, `yOffsets[board] = 0`, `0`, distinguishable from the
tagged fields of initialized endpoints, which all start with `Board`. -/
theorem v1_placeholder_alignment (flags : Flags) (rd : Readings) (b s : Nat)
    (hb : b < 20) (hs : s < 5) :
    (v1Line flags rd = tabAfter (v1Fields flags rd) ++ endl)
    ∧ ((v1Fields flags rd).length = 20 * 5 * 3)
    ∧ (flags b s = false →
        v1Group flags rd b s = [toString (0 : Int), toString (yOffsets b), toString (0 : Int)]
        ∧ v1Group flags rd b s = ["0", "0", "0"]
        ∧ ∀ f ∈ v1Group flags rd b s, ¬ ∃ r : String, f = "Board" ++ r)
    ∧ (flags b s = true →
        ∀ f ∈ v1Group flags rd b s, ∃ r : String, f = "Board" ++ r) := by
  refine ⟨v1Line_eq_fields flags rd, ?_, ?_, ?_⟩
  · unfold v1Fields
    rw [length_flatMap_const _ 15
          (fun b => length_flatMap_const (v1Group flags rd b) 3 (v1Group_length flags rd b)
            (List.range 5) |>.trans (by simp))
          (List.range 20)]
    simp
  · intro hf
    have hgr : v1Group flags rd b s
        = [toString (0 : Int), toString (yOffsets b), toString (0 : Int)] := by
      unfold v1Group
      rw [if_neg (by simp [hf])]
    refine ⟨hgr, ?_, ?_⟩
    · rw [hgr]; rfl
    · intro f hmem
      rw [hgr] at hmem
      have hf0 : f = "0" := by
        simp only [List.mem_cons, List.not_mem_nil, or_false] at hmem
        rcases hmem with h | h | h <;> (rw [h]; rfl)
      rintro ⟨r, hr⟩
      rw [hf0] at hr
      have hlen := congrArg String.length hr
      rw [String.length_append] at hlen
      have h5 : ("Board" : String).length = 5 := rfl
      have h1 : ("0" : String).length = 1 := rfl
      rw [h5, h1] at hlen
      omega
  · intro hf f hmem
    unfold v1Group at hmem
    rw [if_pos hf] at hmem
    simp only [List.mem_cons, List.not_mem_nil, or_false] at hmem
    rcases hmem with h | h | h
    · exact ⟨toString b ++ ("SensorX:" ++ toString (rd b s).x), by
        rw [h]; simp [String.append_assoc]⟩
    · exact ⟨toString b ++ ("SensorY:" ++ toString (rd b s).y), by
        rw [h]; simp [String.append_assoc]⟩
    · exact ⟨toString b ++ ("SensorZ:" ++ toString (rd b s).z), by
        rw [h]; simp [String.append_assoc]⟩

/-- Flags used by the C10 witness: board 0's sensors initialized, every
other board's failed. -/
def v1FlagsW : Flags := fun b _ => b == 0

/-- Readings used by the C10 witness. -/
def v1RdW : Readings := fun _ _ => ⟨1, 2, 3⟩

/-- Witness for C10 at board 3, slot 2 (an uninitialized endpoint under
`v1FlagsW`). -/
theorem v1_placeholder_alignment_witness :
    (v1Line v1FlagsW v1RdW = tabAfter (v1Fields v1FlagsW v1RdW) ++ endl)
    ∧ ((v1Fields v1FlagsW v1RdW).length = 20 * 5 * 3)
    ∧ (v1FlagsW 3 2 = false →
        v1Group v1FlagsW v1RdW 3 2
          = [toString (0 : Int), toString (yOffsets 3), toString (0 : Int)]
        ∧ v1Group v1FlagsW v1RdW 3 2 = ["0", "0", "0"]
        ∧ ∀ f ∈ v1Group v1FlagsW v1RdW 3 2, ¬ ∃ r : String, f = "Board" ++ r)
    ∧ (v1FlagsW 3 2 = true →
        ∀ f ∈ v1Group v1FlagsW v1RdW 3 2, ∃ r : String, f = "Board" ++ r) :=
  v1_placeholder_alignment v1FlagsW v1RdW 3 2 (by decide) (by decide)

end Ruka
